import Mathlib

/-!
Shallow embedding of the AI-Calendar backend core logic.

The definitions below translate, as directly as Lean allows, the
event-matching and create/delete/reschedule transition logic of
`backend/app.py` (`chat_route`), the conversation-state handling of
`backend/api/chatgpt.py` (`process_event_request`), and the client
acquisition of `backend/supabase_client.py` (`get_supabase_client`).

Conventions of the embedding:
  * Python strings are Lean `String`; a Python value that may be `None`
    (or an absent dictionary key, which `dict.get` conflates with `None`)
    is an `Option String`.
  * Python truthiness of an optional string (`if value:`) is `truthy`:
    present and non-empty.
  * The Supabase `events` table is a `List EventRow` in insertion order;
    PostgREST filters (`eq`, `ilike`, `gte`, `lte`) become list filters
    with lexicographic string comparison, which agrees with timestamp
    comparison on the ISO-8601 strings the code stores.
  * The user-facing f-string messages are modelled by the `ChatMsg`
    inductive, whose constructors carry exactly the values interpolated
    into the corresponding Python format strings.
-/

/-- Lexicographic order on character lists by code point, the order Python
and Postgres use on the ASCII ISO-8601 date strings compared here. -/
def charsLe : List Char → List Char → Bool
  | [], _ => true
  | _ :: _, [] => false
  | a :: as, b :: bs =>
    if a.toNat < b.toNat then true
    else if b.toNat < a.toNat then false
    else charsLe as bs

/-- String comparison `a <= b` (Python `<=` on `str`, SQL `<=` on text). -/
def strLe (a b : String) : Bool :=
  charsLe a.toList b.toList

/-- Does the character list `n` occur at the start of `h`. -/
def charsStart : List Char → List Char → Bool
  | [], _ => true
  | _ :: _, [] => false
  | a :: as, b :: bs => a == b && charsStart as bs

/-- Does the character list `n` occur contiguously inside `h`. -/
def charsSub (n : List Char) : List Char → Bool
  | [] => n.isEmpty
  | c :: rest => charsStart n (c :: rest) || charsSub n rest

/-- Python substring test `needle in hay`. -/
def isSubstr (needle hay : String) : Bool :=
  charsSub needle.toList hay.toList

/-- Python `str.lower()` (ASCII case folding, which is all the code relies
on), written on the underlying character list. -/
def lowerStr (s : String) : String :=
  ⟨s.data.map Char.toLower⟩

/-- Split a character list at every whitespace character. -/
def splitWs : List Char → List (List Char)
  | [] => [[]]
  | c :: rest =>
    match splitWs rest with
    | [] => []
    | w :: ws => if c.isWhitespace then [] :: w :: ws else (c :: w) :: ws

/-- Python `str.split()` with no argument: split on whitespace, dropping
empty pieces. -/
def pyWords (s : String) : List String :=
  ((splitWs s.data).map String.mk).filter (fun w => w ≠ "")

/-- The characters before the first occurrence of `c`. -/
def beforeChar (c : Char) : List Char → List Char
  | [] => []
  | a :: rest => if a == c then [] else a :: beforeChar c rest

/-- Python `s.split("T")[0]`: the text before the first `T`
(the whole string when no `T` occurs). -/
def datePart (s : String) : String :=
  String.mk (beforeChar 'T' s.data)

/-- Python truthiness of an optional string: present and non-empty. -/
def truthy : Option String → Bool
  | none => false
  | some s => s ≠ ""

/-- `dict.get(key, "")`-style access: the string, or `""` when absent. -/
def getStr : Option String → String
  | none => ""
  | some s => s

/-- The last `n` elements of a list, Python `l[-n:]`. -/
def takeLast (n : Nat) (l : List α) : List α :=
  l.drop (l.length - n)

/-- A row of the Supabase `events` table (snake_case columns in the source).
`endTime` is the `end` column, renamed because `end` is reserved in Lean. -/
structure EventRow where
  id : String
  title : String
  description : String
  start : String
  endTime : Option String
  allDay : Bool
  userId : Option String
  userEmail : Option String
  rescheduledFrom : Option String
  isDeleted : Bool
  isRescheduled : Bool
  deriving Repr, DecidableEq

/-- The `event_details` dictionary produced by `process_event_request` and
consumed by `chat_route`: every field the chat path reads.  `endTime` is the
`end` key. -/
structure EventIntent where
  id : Option String
  title : Option String
  start : Option String
  endTime : Option String
  originalStart : Option String
  description : Option String
  allDay : Bool
  userId : Option String
  userEmail : Option String
  action : Option String
  deriving Repr, DecidableEq

/-- The user-facing reply chosen by `chat_route`; each constructor carries
the values interpolated into the corresponding Python f-string. -/
inductive ChatMsg where
  | createOk (title : String)
  | createMissing (fields : List String)
  | deleteNeedTitle
  | deleteOk (title : String)
  | deleteNotFound (title : String) (startHint : Option String)
  | rescheduleMissing (fields : List String)
  | rescheduleOk (title fromDate toDate : String)
  | rescheduleNotFound (title date : String)
  | rescheduleNoId
  | rescheduleMissingTitle
  | noAction
  deriving Repr, DecidableEq

/-- The mutable state `chat_route` can touch: the remote `events` table and
the process-local `events` list (which stores raw intent dictionaries). -/
structure ChatState where
  table : List EventRow
  localEvents : List EventIntent
  deriving Repr, DecidableEq

/-- PostgREST `eq("user_id", uid)`: SQL equality, never satisfied by NULL
on either side. -/
def userMatch (rowUser uid : Option String) : Bool :=
  match rowUser, uid with
  | some r, some u => r == u
  | _, _ => false

/-- The keyword score of `app.py` (loop at the reschedule match): the number
of hint keywords occurring as substrings of the lowercased event title. -/
def keywordScore (kws : List String) (title : String) : Nat :=
  (kws.filter (fun kw => isSubstr kw (lowerStr title))).length

/-- The best-match loop of `chat_route` reschedule handling: walk the
candidate rows in store order, skip rows whose title is falsy, and record a
new best exactly when the score strictly exceeds the best so far. -/
def bestAux (kws : List String) : List EventRow → Option EventRow × Nat → Option EventRow × Nat
  | [], acc => acc
  | e :: rest, acc =>
    if e.title ≠ "" then
      let sc := keywordScore kws e.title
      if acc.2 < sc then bestAux kws rest (some e, sc) else bestAux kws rest acc
    else bestAux kws rest acc

/-- The keyword list used by stage-3 matching:
`original_title.lower().split()`. -/
def hintKeywords (hint : String) : List String :=
  pyWords (lowerStr hint)

/-- Stage-3 keyword-overlap matching: tokenize the lowercased hint title,
run the best-match loop, and accept the best row only with positive score
(`if best_match_rs_event and best_match_score_rs > 0`). -/
def stage3Match (hint : String) (cands : List EventRow) : Option EventRow :=
  match bestAux (hintKeywords hint) cands (none, 0) with
  | (some e, sc) => if 0 < sc then some e else none
  | (none, _) => none

/-- The reschedule candidate query
(`eq user_id, eq is_deleted false, lte start dayEnd, gte end dayStart`);
the date clauses are added only when the computed day part is truthy.
A row whose `end` is NULL fails the SQL `gte` clause. -/
def rescheduleCandidates (table : List EventRow) (uid : Option String) (day : String) :
    List EventRow :=
  table.filter (fun e =>
    userMatch e.userId uid && e.isDeleted == false &&
    (if day ≠ "" then
        strLe e.start (day ++ "T23:59:59") &&
        (match e.endTime with
         | some en => strLe (day ++ "T00:00:00") en
         | none => false)
      else true))

/-- Target resolution of the reschedule path: filter by the
`originalStart` day, then keyword-match, which runs only when the
candidate list is non-empty (`if date_events_rs_data and len(...) > 0`). -/
def resolveReschedule (table : List EventRow) (uid : Option String) (ev : EventIntent) :
    Option EventRow :=
  let day := datePart (getStr ev.originalStart)
  let cands := rescheduleCandidates table uid day
  if 0 < cands.length then stage3Match (getStr ev.title) cands else none

/-- The missing-field list of the reschedule precheck, in the dictionary
order of the source (`title`, `originalStart`, `start`, `end`), keeping a
field exactly when its value is falsy. -/
def rescheduleMissingFields (ev : EventIntent) : List String :=
  (if truthy ev.title then [] else ["title"])
  ++ (if truthy ev.originalStart then [] else ["originalStart"])
  ++ (if truthy ev.start then [] else ["start"])
  ++ (if truthy ev.endTime then [] else ["end"])

/-- The reschedule transition of `chat_route`: precheck the four required
fields, resolve the target, raise (caught into an error reply) when the
found row has a falsy id, otherwise tombstone the found row in place
(`update is_deleted true, is_rescheduled true` by id) and, when the found
title is truthy, insert the replacement row carrying the new schedule, the
found title, and `rescheduled_from`. -/
def rescheduleStep (st : ChatState) (uid uemail : Option String) (ev : EventIntent)
    (newId : String) : ChatState × ChatMsg :=
  let missing := rescheduleMissingFields ev
  if missing ≠ [] then (st, ChatMsg.rescheduleMissing missing)
  else
    let day := datePart (getStr ev.originalStart)
    match resolveReschedule st.table uid ev with
    | none => (st, ChatMsg.rescheduleNotFound (getStr ev.title) day)
    | some found =>
      if found.id = "" then (st, ChatMsg.rescheduleNoId)
      else
        let table2 := st.table.map (fun e =>
          if e.id == found.id then { e with isDeleted := true, isRescheduled := true } else e)
        if found.title = "" then ({ st with table := table2 }, ChatMsg.rescheduleMissingTitle)
        else
          let newRow : EventRow := {
            id := newId
            title := found.title
            description := if getStr ev.description ≠ "" then getStr ev.description
                           else found.description
            start := getStr ev.start
            endTime := some (getStr ev.endTime)
            allDay := ev.allDay
            userId := uid
            userEmail := uemail
            rescheduledFrom := some found.id
            isDeleted := false
            isRescheduled := false }
          ({ st with table := table2 ++ [newRow] },
           ChatMsg.rescheduleOk found.title day (datePart (getStr ev.start)))

/-- The date clause of the delete query: when a truthy start hint is given,
keep rows whose `start` lies inside the hint day
(`gte start dayT00:00:00, lte start dayT23:59:59`). -/
def deleteDatePred (startHint : Option String) (e : EventRow) : Bool :=
  if truthy startHint then
    let d := datePart (getStr startHint)
    strLe (d ++ "T00:00:00") e.start && strLe e.start (d ++ "T23:59:59")
  else true

/-- The full delete query predicate:
`eq user_id` and `ilike title %hint%` and the optional date clause. -/
def deleteMatchPred (uid : Option String) (hint : String) (startHint : Option String)
    (e : EventRow) : Bool :=
  userMatch e.userId uid && isSubstr (lowerStr hint) (lowerStr e.title)
    && deleteDatePred startHint e

/-- The rows the delete query removes. -/
def deleteMatches (table : List EventRow) (uid : Option String) (hint : String)
    (startHint : Option String) : List EventRow :=
  table.filter (deleteMatchPred uid hint startHint)

/-- The delete transition of `chat_route`: require a truthy title, execute
the delete query, and report success exactly when it removed rows. -/
def deleteStep (st : ChatState) (uid : Option String) (ev : EventIntent) :
    ChatState × ChatMsg :=
  if truthy ev.title then
    let hint := getStr ev.title
    let removed := deleteMatches st.table uid hint ev.start
    let table2 := st.table.filter (fun e => !(deleteMatchPred uid hint ev.start e))
    if removed ≠ [] then ({ st with table := table2 }, ChatMsg.deleteOk hint)
    else ({ st with table := table2 }, ChatMsg.deleteNotFound hint ev.start)
  else (st, ChatMsg.deleteNeedTitle)

/-- The missing-field list of the create precheck, in source order; a field
is missing when absent or `None` (an empty string passes this check). -/
def createMissingFields (ev : EventIntent) : List String :=
  (if ev.id = none then ["id"] else [])
  ++ (if ev.title = none then ["title"] else [])
  ++ (if ev.start = none then ["start"] else [])
  ++ (if ev.endTime = none then ["end"] else [])
  ++ (if ev.userId = none then ["user_id"] else [])
  ++ (if ev.userEmail = none then ["user_email"] else [])

/-- The fallback at the end of `chat_route`: when the create did not succeed
remotely, append the raw intent to the local `events` list unless already
present, mirroring `if event_details not in events: events.append(...)`. -/
def localFallbackCreate (st : ChatState) (ev : EventIntent) : ChatState :=
  if ev ∈ st.localEvents then st
  else { st with localEvents := st.localEvents ++ [ev] }

/-- The create transition of `chat_route`: on missing fields the remote
insert is skipped, an error reply is chosen, and the trailing local
fallback still appends the intent; otherwise the clean row is inserted. -/
def createStep (st : ChatState) (ev : EventIntent) : ChatState × ChatMsg :=
  let missing := createMissingFields ev
  if missing ≠ [] then (localFallbackCreate st ev, ChatMsg.createMissing missing)
  else
    let row : EventRow := {
      id := getStr ev.id
      title := getStr ev.title
      description := getStr ev.description
      start := getStr ev.start
      endTime := some (getStr ev.endTime)
      allDay := ev.allDay
      userId := ev.userId
      userEmail := ev.userEmail
      rescheduledFrom := none
      isDeleted := false
      isRescheduled := false }
    ({ st with table := st.table ++ [row] }, ChatMsg.createOk (getStr ev.title))

/-- The user injection of `chat_route` (copy `userId` into `user_id` and
`userEmail` into `user_email` when the intent lacks them). -/
def injectUser (ev : EventIntent) (uid uemail : Option String) : EventIntent :=
  let ev1 := match uid, ev.userId with
    | some u, none => { ev with userId := some u }
    | _, _ => ev
  match uemail, ev1.userEmail with
    | some m, none => { ev1 with userEmail := some m }
    | _, _ => ev1

/-- Dispatch on the action tag of the intent, as in `chat_route`; any other
action leaves both stores untouched. -/
def chatDispatch (st : ChatState) (uid uemail : Option String) (ev : EventIntent)
    (newId : String) : ChatState × ChatMsg :=
  match ev.action with
  | some "create" => createStep st ev
  | some "delete" => deleteStep st uid ev
  | some "reschedule" => rescheduleStep st uid uemail ev newId
  | _ => (st, ChatMsg.noAction)

/-- The client acquisition of `supabase_client.py`: when the module-level
client was never built (credentials absent), the call raises. -/
def get_supabase_client (clientOk : Bool) : Except String Unit :=
  if clientOk then Except.ok ()
  else Except.error "Supabase client not initialized. Check environment variables."

/-- The Supabase phase of `chat_route`: runs only when the model produced an
intent; the unguarded `get_supabase_client()` call sits outside every
try-except, so its exception propagates out of the handler. -/
def chat_route_core (clientOk : Bool) (st : ChatState) (uid uemail : Option String)
    (details : Option EventIntent) (newId : String) : Except String (ChatState × ChatMsg) :=
  match details with
  | none => Except.ok (st, ChatMsg.noAction)
  | some ev0 =>
    let ev := injectUser ev0 uid uemail
    match get_supabase_client clientOk with
    | Except.error msg => Except.error msg
    | Except.ok _ => Except.ok (chatDispatch st uid uemail ev newId)

/-- One role-tagged message of the completion request (`api/chatgpt.py`). -/
structure ChatMessage where
  role : String
  content : String
  deriving Repr, DecidableEq

/-- The module-level conversation state of `api/chatgpt.py`:
`conversation_history` and `last_mentioned_events`. -/
structure ConvState where
  history : List ChatMessage
  lastEvents : List EventIntent
  deriving Repr, DecidableEq

/-- The summary line built for one recently mentioned event. -/
def eventSummary (ev : EventIntent) : String :=
  let base := "- " ++ (match ev.title with | some t => t | none => "Untitled event")
  let base := match ev.start with | some s => base ++ " on " ++ s | none => base
  match ev.endTime with | some e => base ++ " to " ++ e | none => base

/-- The recent-events context block sent as an extra system message. -/
def eventsContext (evs : List EventIntent) : String :=
  "Recent events discussed:\n" ++ String.join (evs.map (fun e => eventSummary e ++ "\n"))

/-- The slice of prior turns included in the request,
Python `conversation_history[-10:]`. -/
def historyWindow (st : ConvState) : List ChatMessage :=
  takeLast 10 st.history

/-- The message list `process_event_request` sends to the completion call:
system prompt, optional recent-events context, the history window, and the
user message. -/
def messagesFor (sys : String) (st : ConvState) (userMsg : String) : List ChatMessage :=
  [⟨"system", sys⟩]
  ++ (if st.lastEvents.isEmpty then [] else [⟨"system", eventsContext st.lastEvents⟩])
  ++ historyWindow st
  ++ [⟨"user", userMsg⟩]

/-- The decoded model reply: `eventField` is the `event` value (`None` and
an absent key coincide under `dict.get`), while `actionField` keeps the
absent/null distinction because `dict.get("action", "create")` defaults
only when the key is absent. -/
structure ModelResponse where
  eventField : Option EventIntent
  messageField : Option String
  actionField : Option (Option String)
  deriving Repr, DecidableEq

/-- `response_data.get("action", "create")`. -/
def responseAction (r : ModelResponse) : Option String :=
  match r.actionField with
  | none => some "create"
  | some a => a

/-- The event post-processing of `process_event_request`: when an event was
extracted, give it a fresh id if its own is falsy and record the action on
it. -/
def finalizeEvent (freshId : String) (r : ModelResponse) : Option EventIntent :=
  match r.eventField with
  | none => none
  | some ev =>
    let ev1 := if truthy ev.id then ev else { ev with id := some freshId }
    some { ev1 with action := responseAction r }

/-- The state effect of one `process_event_request` call.  `apiOk = false`
is the exception path (early return, state untouched); `parsed = none` is
the JSON decode failure (early return, state untouched).  Otherwise the
extracted event, when present, is appended to `last_mentioned_events`
(trimmed to the last 3) and the turn is appended to
`conversation_history` (trimmed to the last 20). -/
def process_event_request_state (st : ConvState) (userMsg rawReply : String)
    (apiOk : Bool) (parsed : Option ModelResponse) (freshId : String) : ConvState :=
  if apiOk then
    match parsed with
    | none => st
    | some r =>
      let le := match finalizeEvent freshId r with
        | some ev =>
          let l := st.lastEvents ++ [ev]
          if 3 < l.length then takeLast 3 l else l
        | none => st.lastEvents
      let h :=
        let l := st.history ++ [⟨"user", userMsg⟩, ⟨"assistant", rawReply⟩]
        if 20 < l.length then takeLast 20 l else l
      ⟨h, le⟩
  else st

/-! ### Concrete instances used by witnesses and counterexamples -/

/-- Claim C1 witness store row: the Budget Review scenario of the spec. -/
def c1Row : EventRow :=
  { id := "A", title := "Budget Review", description := "", start := "2024-05-01T10:00:00",
    endTime := some "2024-05-01T11:00:00", allDay := false, userId := some "u",
    userEmail := some "e", rescheduledFrom := none, isDeleted := false,
    isRescheduled := false }

/-- Claim C1 witness intent: reschedule hint `budget` on 2024-05-01. -/
def c1Intent : EventIntent :=
  { id := none, title := some "budget", start := some "2024-05-02T10:00:00",
    endTime := some "2024-05-02T11:00:00", originalStart := some "2024-05-01",
    description := none, allDay := false, userId := some "u", userEmail := some "e",
    action := some "reschedule" }

/-- Claim C2 witness candidate row. -/
def c2Row : EventRow :=
  { id := "T1", title := "Team Standup Meeting", description := "",
    start := "2024-05-01T09:00:00", endTime := some "2024-05-01T10:00:00",
    allDay := false, userId := some "u", userEmail := some "e",
    rescheduledFrom := none, isDeleted := false, isRescheduled := false }

/-- Claim C3 store row: an event whose title the hint matches exactly. -/
def c3Row : EventRow :=
  { id := "A", title := "Budget Review", description := "", start := "2024-05-01T10:00:00",
    endTime := some "2024-05-01T11:00:00", allDay := false, userId := some "u",
    userEmail := some "e", rescheduledFrom := none, isDeleted := false,
    isRescheduled := false }

/-- Claim C3 counterexample intent: the exact stored title as hint, but an
`originalStart` hint on a day with no events. -/
def c3Intent : EventIntent :=
  { id := none, title := some "Budget Review", start := some "2024-06-02T10:00:00",
    endTime := some "2024-06-02T11:00:00", originalStart := some "2024-06-01",
    description := none, allDay := false, userId := some "u", userEmail := some "e",
    action := some "reschedule" }

/-- Claim C3 witness intent: a hint that resolves on the stored day. -/
def c3bIntent : EventIntent :=
  { c3Intent with title := some "budget", originalStart := some "2024-05-01" }

/-- Claim C4 witness delete intent against an empty store. -/
def c4DelIntent : EventIntent :=
  { id := none, title := some "Coffee with Mike", start := some "2024-05-01",
    endTime := none, originalStart := none, description := none, allDay := false,
    userId := some "u", userEmail := some "e", action := some "delete" }

/-- Claim C4 witness reschedule intent against an empty store. -/
def c4RsIntent : EventIntent :=
  { id := none, title := some "budget", start := some "2024-05-02T10:00:00",
    endTime := some "2024-05-02T11:00:00", originalStart := some "2024-05-01",
    description := none, allDay := false, userId := some "u", userEmail := some "e",
    action := some "reschedule" }

/-- Claim C5 counterexample intent: a create missing `start` and `end`
(the spec scenario), with the other required fields present. -/
def c5Intent : EventIntent :=
  { id := some "X", title := some "Lunch", start := none, endTime := none,
    originalStart := none, description := none, allDay := false,
    userId := some "u", userEmail := some "e", action := some "create" }

/-- Claim C5 witness reschedule intent missing `end`. -/
def c5RsIntent : EventIntent :=
  { id := none, title := some "budget", start := some "2024-05-02T10:00:00",
    endTime := none, originalStart := some "2024-05-01", description := none,
    allDay := false, userId := some "u", userEmail := some "e",
    action := some "reschedule" }

/-- Claim C6 counterexample row: starts before the hinted day and ends
inside it, so its interval overlaps the day. -/
def c6Row : EventRow :=
  { id := "B", title := "Team Standup Meeting", description := "",
    start := "2024-05-01T23:00:00", endTime := some "2024-05-02T10:00:00",
    allDay := false, userId := some "u", userEmail := some "e",
    rescheduledFrom := none, isDeleted := false, isRescheduled := false }

/-- Claim C6 second counterexample row: no recorded `end`, start squarely
inside the hinted day, so the claimed substring fallback would match it. -/
def c6bRow : EventRow :=
  { id := "C", title := "Team Standup Meeting", description := "",
    start := "2024-05-02T09:00:00", endTime := none,
    allDay := false, userId := some "u", userEmail := some "e",
    rescheduledFrom := none, isDeleted := false, isRescheduled := false }

/-- Claim C6 counterexample delete intent hinting the overlapped day. -/
def c6DelIntent : EventIntent :=
  { id := none, title := some "standup", start := some "2024-05-02",
    endTime := none, originalStart := none, description := none, allDay := false,
    userId := some "u", userEmail := some "e", action := some "delete" }

/-- Claim C7 counterexample row: on the hinted day, title unrelated to the
hint. -/
def c7Row : EventRow :=
  { id := "Z", title := "Zebra Feeding", description := "",
    start := "2024-05-01T09:00:00", endTime := some "2024-05-01T10:00:00",
    allDay := false, userId := some "u", userEmail := some "e",
    rescheduledFrom := none, isDeleted := false, isRescheduled := false }

/-- Claim C7 counterexample intent: keyword `budget` shares nothing with
the stored title. -/
def c7Intent : EventIntent :=
  { id := none, title := some "budget", start := some "2024-05-02T10:00:00",
    endTime := some "2024-05-02T11:00:00", originalStart := some "2024-05-01",
    description := none, allDay := false, userId := some "u", userEmail := some "e",
    action := some "reschedule" }

/-- Claim C7 witness intent: a hint whose keyword does occur. -/
def c7bIntent : EventIntent :=
  { c7Intent with title := some "zebra" }

/-- Claim C9 witness extracted event. -/
def c9Event : EventIntent :=
  { id := some "E1", title := some "Coffee with Mike", start := some "2024-05-01T09:00:00",
    endTime := some "2024-05-01T10:00:00", originalStart := none, description := none,
    allDay := false, userId := none, userEmail := none, action := none }

/-- Claim C9 witness parsed model reply. -/
def c9Resp : ModelResponse :=
  { eventField := some c9Event, messageField := some "Done", actionField := some (some "create") }

/-- Claim C10 witness event: the model supplied no id. -/
def c10Event : EventIntent :=
  { id := none, title := some "Coffee with Mike", start := some "2024-05-01T09:00:00",
    endTime := some "2024-05-01T10:00:00", originalStart := none, description := none,
    allDay := false, userId := none, userEmail := none, action := none }

/-- Claim C10 witness reply: valid JSON, event present, action key absent. -/
def c10Resp : ModelResponse :=
  { eventField := some c10Event, messageField := some "Done", actionField := none }

/-! ### Helper lemmas about the best-match loop -/

/-- The score the best-match loop effectively assigns a row: rows with a
falsy title are skipped, which coincides with score 0 once every keyword is
non-empty. -/
def effScore (kws : List String) (e : EventRow) : Nat :=
  if e.title = "" then 0 else keywordScore kws e.title

/-- The best-match loop with the skip guard absorbed into `effScore`. -/
def bestCore (kws : List String) :
    List EventRow → Option EventRow × Nat → Option EventRow × Nat
  | [], acc => acc
  | e :: rest, acc =>
    if acc.2 < effScore kws e then bestCore kws rest (some e, effScore kws e)
    else bestCore kws rest acc

lemma bestAux_eq_bestCore (kws : List String) (l : List EventRow)
    (acc : Option EventRow × Nat) : bestAux kws l acc = bestCore kws l acc := by
  induction l generalizing acc with
  | nil => rfl
  | cons e rest ih =>
    by_cases ht : e.title = ""
    · have h0 : effScore kws e = 0 := by simp [effScore, ht]
      simp [bestAux, bestCore, ht, h0, ih]
    · have h0 : effScore kws e = keywordScore kws e.title := by simp [effScore, ht]
      by_cases hsc : acc.2 < keywordScore kws e.title
      · simp [bestAux, bestCore, ht, h0, hsc, ih]
      · simp [bestAux, bestCore, ht, h0, hsc, ih]

lemma bestCore_spec (kws : List String) (l : List EventRow)
    (acc : Option EventRow × Nat) :
    (bestCore kws l acc = acc ∧ ∀ x ∈ l, effScore kws x ≤ acc.2) ∨
    (∃ pre e post, l = pre ++ e :: post ∧
      bestCore kws l acc = (some e, effScore kws e) ∧ acc.2 < effScore kws e ∧
      (∀ x ∈ pre, effScore kws x < effScore kws e) ∧
      (∀ y ∈ post, effScore kws y ≤ effScore kws e)) := by
  induction l generalizing acc with
  | nil => exact Or.inl ⟨rfl, by simp⟩
  | cons a rest ih =>
    by_cases hup : acc.2 < effScore kws a
    · have hstep : bestCore kws (a :: rest) acc
          = bestCore kws rest (some a, effScore kws a) := by
        simp [bestCore, hup]
      rcases ih (some a, effScore kws a) with ⟨heq, hall⟩ |
        ⟨pre, e, post, hsplit, heq, hlt, hpre, hpost⟩
      · exact Or.inr ⟨[], a, rest, by simp, by rw [hstep, heq], hup,
          by simp, fun y hy => hall y hy⟩
      · refine Or.inr ⟨a :: pre, e, post, by simp [hsplit], by rw [hstep, heq],
          lt_trans hup hlt, ?_, hpost⟩
        intro x hx
        rcases List.mem_cons.mp hx with rfl | hx
        · exact hlt
        · exact hpre x hx
    · have hstep : bestCore kws (a :: rest) acc = bestCore kws rest acc := by
        simp [bestCore, hup]
      rcases ih acc with ⟨heq, hall⟩ |
        ⟨pre, e, post, hsplit, heq, hlt, hpre, hpost⟩
      · refine Or.inl ⟨by rw [hstep, heq], ?_⟩
        intro x hx
        rcases List.mem_cons.mp hx with rfl | hx
        · exact Nat.le_of_not_lt hup
        · exact hall x hx
      · refine Or.inr ⟨a :: pre, e, post, by simp [hsplit], by rw [hstep, heq],
          hlt, ?_, hpost⟩
        intro x hx
        rcases List.mem_cons.mp hx with rfl | hx
        · exact lt_of_le_of_lt (Nat.le_of_not_lt hup) hlt
        · exact hpre x hx

lemma data_ne_nil_of_ne_empty {w : String} (h : w ≠ "") : w.data ≠ [] := by
  intro hl
  apply h
  cases w with
  | mk l =>
    simp at hl
    subst hl
    rfl

lemma mem_hintKeywords_ne_empty {hint w : String} (hw : w ∈ hintKeywords hint) :
    w ≠ "" := by
  have := List.of_mem_filter (p := fun x => x ≠ "") hw
  simpa using this

lemma keywordScore_empty_title {kws : List String} (h : ∀ w ∈ kws, w ≠ "") :
    keywordScore kws "" = 0 := by
  unfold keywordScore
  rw [List.length_eq_zero, List.filter_eq_nil_iff]
  intro w hw
  have hne := data_ne_nil_of_ne_empty (h w hw)
  have hsub : isSubstr w (lowerStr "") = w.toList.isEmpty := rfl
  simp [hsub, List.isEmpty_iff, String.toList, hne]

lemma effScore_hint (hint : String) (e : EventRow) :
    effScore (hintKeywords hint) e = keywordScore (hintKeywords hint) e.title := by
  unfold effScore
  split
  · rename_i ht
    rw [ht, keywordScore_empty_title (fun w hw => mem_hintKeywords_ne_empty hw)]
  · rfl

lemma stage3Match_some {hint : String} {cands : List EventRow} {e : EventRow}
    (h : stage3Match hint cands = some e) :
    e ∈ cands ∧ 0 < keywordScore (hintKeywords hint) e.title ∧
      (∀ x ∈ cands, keywordScore (hintKeywords hint) x.title
        ≤ keywordScore (hintKeywords hint) e.title) ∧
      ∃ pre post, cands = pre ++ e :: post ∧
        ∀ x ∈ pre, keywordScore (hintKeywords hint) x.title
          < keywordScore (hintKeywords hint) e.title := by
  unfold stage3Match at h
  rw [bestAux_eq_bestCore] at h
  rcases bestCore_spec (hintKeywords hint) cands (none, 0) with ⟨heq, _⟩ |
    ⟨pre, e', post, hsplit, heq, hpos, hpre, hpost⟩
  · rw [heq] at h
    simp at h
  · rw [heq] at h
    have hpos0 : (0 : Nat) < effScore (hintKeywords hint) e' := hpos
    have h2 : (if 0 < effScore (hintKeywords hint) e' then some e' else none)
        = some e := h
    rw [if_pos hpos0] at h2
    have he : e' = e := by simpa using h2
    subst he
    refine ⟨?_, ?_, ?_, pre, post, hsplit, ?_⟩
    · rw [hsplit]
      exact List.mem_append_right _ (List.mem_cons_self _ _)
    · rw [← effScore_hint]
      exact hpos0
    · intro x hx
      rw [hsplit] at hx
      rcases List.mem_append.mp hx with hx | hx
      · rw [← effScore_hint, ← effScore_hint]
        exact le_of_lt (hpre x hx)
      · rcases List.mem_cons.mp hx with rfl | hx
        · exact le_refl _
        · rw [← effScore_hint, ← effScore_hint]
          exact hpost x hx
    · intro x hx
      rw [← effScore_hint, ← effScore_hint]
      exact hpre x hx

lemma stage3Match_none {hint : String} {cands : List EventRow}
    (h : stage3Match hint cands = none) :
    ∀ x ∈ cands, keywordScore (hintKeywords hint) x.title = 0 := by
  unfold stage3Match at h
  rw [bestAux_eq_bestCore] at h
  rcases bestCore_spec (hintKeywords hint) cands (none, 0) with ⟨heq, hall⟩ |
    ⟨pre, e', post, hsplit, heq, hpos, hpre, hpost⟩
  · intro x hx
    have h1 := hall x hx
    rw [effScore_hint] at h1
    omega
  · rw [heq] at h
    have hpos0 : (0 : Nat) < effScore (hintKeywords hint) e' := hpos
    have h2 : (if 0 < effScore (hintKeywords hint) e' then some e' else none)
        = none := h
    rw [if_pos hpos0] at h2
    simp at h2

lemma resolveReschedule_some {table : List EventRow} {uid : Option String}
    {ev : EventIntent} {found : EventRow}
    (h : resolveReschedule table uid ev = some found) :
    found ∈ rescheduleCandidates table uid (datePart (getStr ev.originalStart)) ∧
    found ∈ table ∧ found.title ≠ "" ∧
    0 < keywordScore (hintKeywords (getStr ev.title)) found.title := by
  simp only [resolveReschedule] at h
  split at h
  · obtain ⟨hmem, hpos, _, _⟩ := stage3Match_some h
    refine ⟨hmem, (List.mem_filter.mp hmem).1, ?_, hpos⟩
    intro ht
    rw [ht, keywordScore_empty_title (fun w hw => mem_hintKeywords_ne_empty hw)] at hpos
    omega
  · simp at h

/-! ### Claim theorems -/

/-- Claim C1: for every reschedule intent whose target event is resolved,
the transition tombstones the resolved original (isDeleted and
isRescheduled set on the record with its existing id, timestamps
untouched), leaves unrelated records as they are, and inserts exactly one
new event carrying the fresh id, the intent's new start and end, the
resolved event's original title, and rescheduledFrom equal to the
original's id; the local list is untouched. -/
theorem reschedule_tombstones_and_inserts
    (st : ChatState) (uid uemail : Option String) (ev : EventIntent) (newId : String)
    (found : EventRow)
    (hmiss : rescheduleMissingFields ev = [])
    (hres : resolveReschedule st.table uid ev = some found)
    (hid : found.id ≠ "")
    (hfresh : ∀ e ∈ st.table, e.id ≠ newId) :
    (∀ e ∈ st.table, e.id = found.id →
      { e with isDeleted := true, isRescheduled := true }
        ∈ (rescheduleStep st uid uemail ev newId).1.table) ∧
    (∀ e ∈ st.table, e.id ≠ found.id →
      e ∈ (rescheduleStep st uid uemail ev newId).1.table) ∧
    (∃ n ∈ (rescheduleStep st uid uemail ev newId).1.table,
      n.id = newId ∧ n.title = found.title ∧ n.start = getStr ev.start ∧
      n.endTime = some (getStr ev.endTime) ∧ n.rescheduledFrom = some found.id ∧
      n.isDeleted = false ∧ n.isRescheduled = false) ∧
    newId ≠ found.id ∧
    (rescheduleStep st uid uemail ev newId).1.table.length = st.table.length + 1 ∧
    (rescheduleStep st uid uemail ev newId).1.localEvents = st.localEvents := by
  obtain ⟨-, hmem, htitle, -⟩ := resolveReschedule_some hres
  have hkey : rescheduleStep st uid uemail ev newId =
      ({ st with table := st.table.map (fun e => if e.id == found.id
            then { e with isDeleted := true, isRescheduled := true } else e)
          ++ [{ id := newId, title := found.title,
                description := if getStr ev.description ≠ "" then getStr ev.description
                               else found.description,
                start := getStr ev.start, endTime := some (getStr ev.endTime),
                allDay := ev.allDay, userId := uid, userEmail := uemail,
                rescheduledFrom := some found.id,
                isDeleted := false, isRescheduled := false }] },
        ChatMsg.rescheduleOk found.title (datePart (getStr ev.originalStart))
          (datePart (getStr ev.start))) := by
    simp only [rescheduleStep, hmiss, hres]
    simp [hid, htitle]
  refine ⟨?_, ?_, ?_, ?_, ?_, ?_⟩
  · intro e he heid
    rw [hkey]
    apply List.mem_append_left
    exact List.mem_map.mpr ⟨e, he, by simp [heid]⟩
  · intro e he heid
    rw [hkey]
    apply List.mem_append_left
    exact List.mem_map.mpr ⟨e, he, by simp [heid]⟩
  · rw [hkey]
    refine ⟨{ id := newId, title := found.title,
              description := if getStr ev.description ≠ "" then getStr ev.description
                             else found.description,
              start := getStr ev.start, endTime := some (getStr ev.endTime),
              allDay := ev.allDay, userId := uid, userEmail := uemail,
              rescheduledFrom := some found.id,
              isDeleted := false, isRescheduled := false },
      List.mem_append_right _ (List.mem_singleton_self _),
      rfl, rfl, rfl, rfl, rfl, rfl, rfl⟩
  · exact fun hcontra => hfresh found hmem (hcontra ▸ rfl)
  · rw [hkey]
    simp
  · rw [hkey]

/-- Claim C2: stage-3 matching tokenizes the lowercased hint title into
words, scores each candidate by the number of hint words occurring as
substrings of its lowercased title, picks the maximum with ties broken by
store order (any selected event strictly beats everything before it and is
at least as good as everything after it), and accepts only positive
scores; determinism holds because `stage3Match` is a function of the store
contents and the intent alone. -/
theorem stage3_selects_unique_earliest_maximum
    (hint : String) (cands : List EventRow) (_hne : cands ≠ []) :
    (∀ e, stage3Match hint cands = some e →
      e ∈ cands ∧ 0 < keywordScore (hintKeywords hint) e.title ∧
        (∀ x ∈ cands, keywordScore (hintKeywords hint) x.title
          ≤ keywordScore (hintKeywords hint) e.title) ∧
        ∃ pre post, cands = pre ++ e :: post ∧
          ∀ x ∈ pre, keywordScore (hintKeywords hint) x.title
            < keywordScore (hintKeywords hint) e.title) ∧
    (stage3Match hint cands = none →
      ∀ x ∈ cands, keywordScore (hintKeywords hint) x.title = 0) :=
  ⟨fun _ he => stage3Match_some he, fun hn => stage3Match_none hn⟩

/-- Witness for claim C1 at the Budget Review scenario. -/
theorem reschedule_tombstones_and_inserts_witness :
    (∃ n ∈ (rescheduleStep ⟨[c1Row], []⟩ (some "u") (some "e") c1Intent "NEW").1.table,
      n.id = "NEW" ∧ n.title = c1Row.title ∧ n.start = getStr c1Intent.start ∧
      n.endTime = some (getStr c1Intent.endTime) ∧ n.rescheduledFrom = some c1Row.id ∧
      n.isDeleted = false ∧ n.isRescheduled = false) ∧
    "NEW" ≠ c1Row.id := by
  have h := reschedule_tombstones_and_inserts ⟨[c1Row], []⟩ (some "u") (some "e")
    c1Intent "NEW" c1Row (by decide) (by decide) (by decide) (by decide)
  exact ⟨h.2.2.1, h.2.2.2.1⟩

/-- Witness for claim C2 on a one-candidate store. -/
theorem stage3_selects_unique_earliest_maximum_witness :
    c2Row ∈ [c2Row] ∧ 0 < keywordScore (hintKeywords "standup") c2Row.title ∧
      (∀ x ∈ [c2Row], keywordScore (hintKeywords "standup") x.title
        ≤ keywordScore (hintKeywords "standup") c2Row.title) ∧
      ∃ pre post, [c2Row] = pre ++ c2Row :: post ∧
        ∀ x ∈ pre, keywordScore (hintKeywords "standup") x.title
          < keywordScore (hintKeywords "standup") c2Row.title :=
  (stage3_selects_unique_earliest_maximum "standup" [c2Row] (by decide)).1
    c2Row (by decide)

/-- Claim C3 counterexample: the store holds an event whose title equals
the hint title up to case, yet resolution fails, because the code has no
exact-title stage: the date filter for the hinted (different) day empties
the candidate set and no further matching runs. -/
theorem no_exact_title_stage_counterexample :
    lowerStr c3Row.title = lowerStr (getStr c3Intent.title) ∧
    resolveReschedule [c3Row] (some "u") c3Intent = none ∧
    rescheduleStep ⟨[c3Row], []⟩ (some "u") (some "e") c3Intent "N" =
      (⟨[c3Row], []⟩, ChatMsg.rescheduleNotFound "Budget Review" "2024-06-01") := by
  decide

/-- Claim C3 (amended): target resolution has no exact-title stage.  For a
reschedule intent, any resolved event lies in the date-window candidate
set of the `originalStart` day; for a delete intent, a single query keeps
exactly the rows passing the user filter, the case-insensitive substring
title match, and the optional date clause at once. -/
theorem resolution_has_no_exact_title_stage
    (table : List EventRow) (uid : Option String) (ev : EventIntent)
    (found : EventRow) (hint : String) (startHint : Option String) (e : EventRow) :
    (resolveReschedule table uid ev = some found →
      found ∈ rescheduleCandidates table uid (datePart (getStr ev.originalStart))) ∧
    (e ∈ deleteMatches table uid hint startHint ↔
      e ∈ table ∧ userMatch e.userId uid = true ∧
      isSubstr (lowerStr hint) (lowerStr e.title) = true ∧
      deleteDatePred startHint e = true) := by
  constructor
  · intro h
    exact (resolveReschedule_some h).1
  · simp [deleteMatches, deleteMatchPred, List.mem_filter, and_assoc]

/-- Witness for the amended claim C3. -/
theorem resolution_has_no_exact_title_stage_witness :
    c3Row ∈ rescheduleCandidates [c3Row] (some "u")
      (datePart (getStr c3bIntent.originalStart)) :=
  (resolution_has_no_exact_title_stage [c3Row] (some "u") c3bIntent c3Row
    "budget" none c3Row).1 (by decide)

/-- Claim C4: when the delete query matches nothing, or reschedule
resolution finds nothing, the reply names the searched title and the state
(remote table and local list) is returned unchanged. -/
theorem not_found_reports_title_and_preserves_store
    (st : ChatState) (uid uemail : Option String) (ev : EventIntent) (newId : String) :
    (truthy ev.title = true →
      deleteMatches st.table uid (getStr ev.title) ev.start = [] →
      deleteStep st uid ev = (st, ChatMsg.deleteNotFound (getStr ev.title) ev.start)) ∧
    (rescheduleMissingFields ev = [] →
      resolveReschedule st.table uid ev = none →
      rescheduleStep st uid uemail ev newId =
        (st, ChatMsg.rescheduleNotFound (getStr ev.title)
          (datePart (getStr ev.originalStart)))) := by
  constructor
  · intro ht hempty
    have htb : st.table.filter
        (fun e => !(deleteMatchPred uid (getStr ev.title) ev.start e)) = st.table := by
      rw [List.filter_eq_self]
      intro a ha
      have hfalse : deleteMatchPred uid (getStr ev.title) ev.start a = false := by
        by_contra hcontra
        have hmem : a ∈ deleteMatches st.table uid (getStr ev.title) ev.start :=
          List.mem_filter.mpr ⟨ha, by simpa using hcontra⟩
        rw [hempty] at hmem
        simp at hmem
      simp [hfalse]
    simp only [deleteStep, ht, if_true, hempty, htb]
    simp
  · intro hmiss hnone
    simp only [rescheduleStep, hmiss, hnone]
    simp

/-- Witness for claim C4: the empty-store scenario of the spec. -/
theorem not_found_reports_title_and_preserves_store_witness :
    deleteStep ⟨[], []⟩ (some "u") c4DelIntent =
      (⟨[], []⟩, ChatMsg.deleteNotFound "Coffee with Mike" (some "2024-05-01")) ∧
    rescheduleStep ⟨[], []⟩ (some "u") (some "e") c4RsIntent "N" =
      (⟨[], []⟩, ChatMsg.rescheduleNotFound "budget" "2024-05-01") :=
  ⟨(not_found_reports_title_and_preserves_store ⟨[], []⟩ (some "u") (some "e")
      c4DelIntent "N").1 (by decide) (by decide),
   (not_found_reports_title_and_preserves_store ⟨[], []⟩ (some "u") (some "e")
      c4RsIntent "N").2 (by decide) (by decide)⟩

/-- Claim C5 counterexample: a create intent missing `start` and `end`
receives the missing-fields reply naming them, yet the state is not left
unchanged: the trailing fallback appends the incomplete intent to the
local events list. -/
theorem create_missing_fields_still_appends_counterexample :
    (createStep ⟨[], []⟩ c5Intent).2 = ChatMsg.createMissing ["start", "end"] ∧
    (createStep ⟨[], []⟩ c5Intent).1.localEvents = [c5Intent] ∧
    (createStep ⟨[], []⟩ c5Intent).1 ≠ ⟨[], []⟩ := by
  decide

/-- Claim C5 (amended): missing required fields short-circuit before any
resolution and produce an error naming each absent field; a reschedule
leaves the state fully unchanged, while a create still appends the
incomplete intent to the local events list (nothing reaches the remote
table). -/
theorem missing_fields_short_circuit_amended
    (st : ChatState) (uid uemail : Option String) (ev : EventIntent) (newId : String) :
    (createMissingFields ev ≠ [] →
      (createStep st ev).2 = ChatMsg.createMissing (createMissingFields ev) ∧
      (createStep st ev).1.table = st.table ∧
      (ev ∉ st.localEvents →
        (createStep st ev).1.localEvents = st.localEvents ++ [ev])) ∧
    (rescheduleMissingFields ev ≠ [] →
      rescheduleStep st uid uemail ev newId =
        (st, ChatMsg.rescheduleMissing (rescheduleMissingFields ev))) := by
  constructor
  · intro hm
    have hc : createStep st ev
        = (localFallbackCreate st ev, ChatMsg.createMissing (createMissingFields ev)) := by
      simp only [createStep, if_pos hm]
    refine ⟨by rw [hc], ?_, ?_⟩
    · rw [hc]
      simp only [localFallbackCreate]
      split <;> rfl
    · intro hnot
      rw [hc]
      simp [localFallbackCreate, hnot]
  · intro hm
    simp only [rescheduleStep, if_pos hm]

/-- Witness for the amended claim C5. -/
theorem missing_fields_short_circuit_amended_witness :
    ((createStep ⟨[], []⟩ c5Intent).2 = ChatMsg.createMissing (createMissingFields c5Intent) ∧
     (createStep ⟨[], []⟩ c5Intent).1.table = [] ∧
     (createStep ⟨[], []⟩ c5Intent).1.localEvents = [] ++ [c5Intent]) ∧
    rescheduleStep ⟨[], []⟩ (some "u") (some "e") c5RsIntent "N" =
      (⟨[], []⟩, ChatMsg.rescheduleMissing (rescheduleMissingFields c5RsIntent)) := by
  have h1 := (missing_fields_short_circuit_amended ⟨[], []⟩ (some "u") (some "e")
    c5Intent "N").1 (by decide)
  have h2 := (missing_fields_short_circuit_amended ⟨[], []⟩ (some "u") (some "e")
    c5RsIntent "N").2 (by decide)
  exact ⟨⟨h1.1, h1.2.1, h1.2.2 (by decide)⟩, h2⟩

/-- Claim C6 counterexample: an event whose `[start, end]` interval
overlaps the hinted calendar day (first two conjuncts are exactly the
claimed window), whose title contains the hint and whose user matches, yet
the delete query selects nothing, because the delete date clause requires
`start` itself to lie inside the day.  The last two conjuncts refute the
fallback clause on the reschedule side: a row with no recorded `end` whose
`start` contains the hint date as a substring is simply excluded by the
date-window filter, not matched by substring. -/
theorem delete_window_counterexample :
    strLe c6Row.start ("2024-05-02" ++ "T23:59:59") = true ∧
    (match c6Row.endTime with
     | some en => strLe ("2024-05-02" ++ "T00:00:00") en
     | none => false) = true ∧
    isSubstr (lowerStr "standup") (lowerStr c6Row.title) = true ∧
    userMatch c6Row.userId (some "u") = true ∧
    deleteMatches [c6Row] (some "u") "standup" (some "2024-05-02") = [] ∧
    deleteStep ⟨[c6Row], []⟩ (some "u") c6DelIntent =
      (⟨[c6Row], []⟩, ChatMsg.deleteNotFound "standup" (some "2024-05-02")) ∧
    isSubstr "2024-05-02" c6bRow.start = true ∧
    rescheduleCandidates [c6bRow] (some "u") "2024-05-02" = [] := by
  decide

/-- Claim C6 (amended): the reschedule date filter keeps exactly the
undeleted rows of the user with `start <= dayEnd` and a non-NULL
`end >= dayStart` (when the day part is non-empty); the delete date clause
instead keeps exactly the rows whose `start` lies inside the hinted day. -/
theorem date_window_filters_characterization
    (table : List EventRow) (uid : Option String) (day : String)
    (startHint : Option String) (e : EventRow) :
    (e ∈ rescheduleCandidates table uid day ↔
      e ∈ table ∧ userMatch e.userId uid = true ∧ e.isDeleted = false ∧
      (day ≠ "" →
        strLe e.start (day ++ "T23:59:59") = true ∧
        ∃ en, e.endTime = some en ∧ strLe (day ++ "T00:00:00") en = true)) ∧
    (truthy startHint = true →
      (deleteDatePred startHint e = true ↔
        strLe (datePart (getStr startHint) ++ "T00:00:00") e.start = true ∧
        strLe e.start (datePart (getStr startHint) ++ "T23:59:59") = true)) := by
  constructor
  · simp only [rescheduleCandidates, List.mem_filter, Bool.and_eq_true, beq_iff_eq]
    constructor
    · rintro ⟨hm, ⟨hu, hd⟩, hdate⟩
      refine ⟨hm, hu, hd, ?_⟩
      intro hday
      rw [if_pos hday, Bool.and_eq_true] at hdate
      obtain ⟨h1, h2⟩ := hdate
      refine ⟨h1, ?_⟩
      cases he : e.endTime with
      | none =>
        rw [he] at h2
        exact absurd h2 (by simp)
      | some en =>
        rw [he] at h2
        exact ⟨en, rfl, h2⟩
    · rintro ⟨hm, hu, hd, hdate⟩
      refine ⟨hm, ⟨hu, hd⟩, ?_⟩
      by_cases hday : day ≠ ""
      · rw [if_pos hday]
        obtain ⟨h1, en, he, h2⟩ := hdate hday
        rw [he]
        simp [h1, h2]
      · rw [if_neg hday]
  · intro hth
    simp [deleteDatePred, hth]

/-- Witness for the amended claim C6. -/
theorem date_window_filters_characterization_witness :
    c6Row ∈ rescheduleCandidates [c6Row] (some "u") "2024-05-02" ∧
    (deleteDatePred (some "2024-05-02") c6Row = true ↔
      strLe (datePart (getStr (some "2024-05-02")) ++ "T00:00:00") c6Row.start = true ∧
      strLe c6Row.start (datePart (getStr (some "2024-05-02")) ++ "T23:59:59") = true) :=
  ⟨(date_window_filters_characterization [c6Row] (some "u") "2024-05-02"
      (some "2024-05-02") c6Row).1.mpr
      ⟨by decide, by decide, by decide,
       fun _ => ⟨by decide, "2024-05-02T10:00:00", by decide, by decide⟩⟩,
   (date_window_filters_characterization [c6Row] (some "u") "2024-05-02"
      (some "2024-05-02") c6Row).2 (by decide)⟩

/-- Claim C7 counterexample: the store holds an event on the hinted day
(and it passes the date-window filter), but the hint title shares no
keyword with it; stages 1 to 3 in the claim's numbering all fail, and the
code reports not-found with the store unchanged instead of picking the
same-day event. -/
theorem date_only_fallback_absent_counterexample :
    datePart c7Row.start = datePart (getStr c7Intent.originalStart) ∧
    c7Row ∈ rescheduleCandidates [c7Row] (some "u")
      (datePart (getStr c7Intent.originalStart)) ∧
    resolveReschedule [c7Row] (some "u") c7Intent = none ∧
    rescheduleStep ⟨[c7Row], []⟩ (some "u") (some "e") c7Intent "N" =
      (⟨[c7Row], []⟩, ChatMsg.rescheduleNotFound "budget" "2024-05-01") := by
  decide

/-- Claim C7 (amended): there is no date-only fallback: a reschedule target
is only ever resolved when at least one keyword of the hint title occurs
in the chosen event's lowercased title, never on the date alone. -/
theorem resolution_requires_keyword_overlap
    (table : List EventRow) (uid : Option String) (ev : EventIntent)
    (found : EventRow)
    (hres : resolveReschedule table uid ev = some found) :
    ∃ kw ∈ hintKeywords (getStr ev.title), isSubstr kw (lowerStr found.title) = true := by
  have hpos := (resolveReschedule_some hres).2.2.2
  unfold keywordScore at hpos
  rw [List.length_pos] at hpos
  obtain ⟨kw, hkw⟩ := List.exists_mem_of_ne_nil _ hpos
  have hm := List.mem_filter.mp hkw
  exact ⟨kw, hm.1, hm.2⟩

/-- Witness for the amended claim C7. -/
theorem resolution_requires_keyword_overlap_witness :
    ∃ kw ∈ hintKeywords (getStr c7bIntent.title),
      isSubstr kw (lowerStr c7Row.title) = true :=
  resolution_requires_keyword_overlap [c7Row] (some "u") c7bIntent c7Row (by decide)

/-- Claim C8 (code bug): with no configured credentials the module-level
client is never built, `get_supabase_client` raises, and the unguarded
call in `chat_route` propagates the exception out of the handler for every
chat turn that produced an intent — the graceful `Database not connected`
branch is unreachable. -/
theorem chat_turn_without_credentials_raises
    (st : ChatState) (uid uemail : Option String) (ev : EventIntent) (newId : String) :
    chat_route_core false st uid uemail (some ev) newId =
      Except.error "Supabase client not initialized. Check environment variables." :=
  rfl

lemma takeLast_length_le (n : Nat) (l : List α) : (takeLast n l).length ≤ n := by
  unfold takeLast
  rw [List.length_drop]
  omega

lemma takeLast_suffix (n : Nat) (l : List α) : List.IsSuffix (takeLast n l) l := by
  unfold takeLast
  exact List.drop_suffix _ _

lemma takeLast_eq_self {n : Nat} {l : List α} (h : l.length ≤ n) : takeLast n l = l := by
  unfold takeLast
  rw [Nat.sub_eq_zero_of_le h, List.drop_zero]

lemma capped_length_le (cap : Nat) (l : List α) :
    (if cap < l.length then takeLast cap l else l).length ≤ cap := by
  split
  · exact takeLast_length_le _ _
  · omega

lemma capped_suffix (cap : Nat) (l : List α) :
    List.IsSuffix (if cap < l.length then takeLast cap l else l) l := by
  split
  · exact takeLast_suffix _ _
  · exact List.suffix_refl _

/-- Claim C9: the completion request includes at most the last 10 prior
history entries (a suffix of the history) and renders exactly the
recent-events buffer, which the invariant keeps at its last at-most-3
entries; after any turn the history holds at most 20 entries — evicting
oldest first, since the new history is a suffix of the old one plus the
appended turn — and the recent-events buffer holds at most 3. -/
theorem bounded_context_windows_invariant
    (st : ConvState) (userMsg rawReply freshId : String)
    (apiOk : Bool) (parsed : Option ModelResponse)
    (hh : st.history.length ≤ 20) (he : st.lastEvents.length ≤ 3) :
    (historyWindow st).length ≤ 10 ∧
    List.IsSuffix (historyWindow st) st.history ∧
    st.lastEvents = takeLast 3 st.lastEvents ∧
    (process_event_request_state st userMsg rawReply apiOk parsed freshId).history.length ≤ 20 ∧
    (process_event_request_state st userMsg rawReply apiOk parsed freshId).lastEvents.length ≤ 3 ∧
    (∀ r, apiOk = true → parsed = some r →
      List.IsSuffix
        (process_event_request_state st userMsg rawReply apiOk parsed freshId).history
        (st.history ++ [⟨"user", userMsg⟩, ⟨"assistant", rawReply⟩])) := by
  refine ⟨takeLast_length_le _ _, takeLast_suffix _ _, (takeLast_eq_self he).symm,
    ?_, ?_, ?_⟩
  · cases apiOk with
    | false => exact hh
    | true =>
      cases parsed with
      | none => exact hh
      | some r =>
        exact capped_length_le 20
          (st.history ++ [⟨"user", userMsg⟩, ⟨"assistant", rawReply⟩])
  · cases apiOk with
    | false => exact he
    | true =>
      cases parsed with
      | none => exact he
      | some r =>
        cases hfe : finalizeEvent freshId r with
        | none =>
          simp only [process_event_request_state, hfe]
          exact he
        | some ev =>
          simp only [process_event_request_state, hfe]
          exact capped_length_le 3 (st.lastEvents ++ [ev])
  · intro r hapi hp
    subst hapi
    subst hp
    exact capped_suffix 20
      (st.history ++ [⟨"user", userMsg⟩, ⟨"assistant", rawReply⟩])

/-- Witness for claim C9 starting from the empty module state. -/
theorem bounded_context_windows_invariant_witness :
    (historyWindow ⟨[], []⟩).length ≤ 10 ∧
    List.IsSuffix (historyWindow ⟨[], []⟩) [] ∧
    ([] : List EventIntent) = takeLast 3 [] ∧
    (process_event_request_state ⟨[], []⟩ "hi" "ok" true (some c9Resp) "F").history.length ≤ 20 ∧
    (process_event_request_state ⟨[], []⟩ "hi" "ok" true (some c9Resp) "F").lastEvents.length ≤ 3 ∧
    (∀ r, true = true → some c9Resp = some r →
      List.IsSuffix
        (process_event_request_state ⟨[], []⟩ "hi" "ok" true (some c9Resp) "F").history
        ([] ++ [⟨"user", "hi"⟩, ⟨"assistant", "ok"⟩])) :=
  bounded_context_windows_invariant ⟨[], []⟩ "hi" "ok" "F" true (some c9Resp)
    (by decide) (by decide)

/-- Claim C10: a decoded reply whose `action` key is absent is finalized
with action `create` (in particular never delete or reschedule), and every
returned event carries a truthy id, replaced by the fresh one exactly when
the model supplied a falsy id. -/
theorem model_action_default_and_id
    (freshId : String) (r : ModelResponse) (ev ev' : EventIntent)
    (hfresh : freshId ≠ "") :
    (r.actionField = none → r.eventField = some ev →
      ∃ e', finalizeEvent freshId r = some e' ∧ e'.action = some "create") ∧
    (finalizeEvent freshId r = some ev' → truthy ev'.id = true) ∧
    (r.eventField = some ev → truthy ev.id = false →
      finalizeEvent freshId r
        = some { ev with id := some freshId, action := responseAction r }) := by
  refine ⟨?_, ?_, ?_⟩
  · intro ha he
    simp only [finalizeEvent, he]
    refine ⟨_, rfl, ?_⟩
    simp [responseAction, ha]
  · intro hf
    cases hev : r.eventField with
    | none =>
      simp only [finalizeEvent, hev] at hf
      exact Option.noConfusion hf
    | some ev0 =>
      simp only [finalizeEvent, hev] at hf
      have hv : ev' = { (if truthy ev0.id then ev0
          else { ev0 with id := some freshId }) with action := responseAction r } := by
        injection hf with h
        exact h.symm
      rw [hv]
      by_cases hid : truthy ev0.id = true
      · rw [if_pos hid]
        exact hid
      · rw [if_neg hid]
        simp [truthy, hfresh]
  · intro he hid
    simp only [finalizeEvent, he]
    rw [if_neg (by simp [hid])]

/-- Witness for claim C10: the model supplied an event with no id and no
action key. -/
theorem model_action_default_and_id_witness :
    (∃ e', finalizeEvent "F" c10Resp = some e' ∧ e'.action = some "create") ∧
    finalizeEvent "F" c10Resp
      = some { c10Event with id := some "F", action := responseAction c10Resp } ∧
    truthy ({ c10Event with id := some "F", action := responseAction c10Resp }).id = true :=
  ⟨(model_action_default_and_id "F" c10Resp c10Event c10Event (by decide)).1 rfl rfl,
   (model_action_default_and_id "F" c10Resp c10Event c10Event (by decide)).2.2 rfl (by decide),
   (model_action_default_and_id "F" c10Resp c10Event
      { c10Event with id := some "F", action := responseAction c10Resp }
      (by decide)).2.1 (by decide)⟩
